import Mathlib

set_option maxHeartbeats 1000000

/-!
Shallow embedding of the FreeNAS middleware crypto plugin
(`src/middlewared/middlewared/plugins/crypto.py`): the Certificate and
CertificateAuthority services.  Serials are modelled as natural numbers
(the create schema validates `serial` with `Range(min=1)`), external
crypto/ACME/datastore collaborators are modelled by the data they return,
and the side effects of each workflow (variant dispatch, datastore writes,
service restarts, ACME network steps) are recorded as explicit effect
lists so that "no side effect happened" is a statement about the result.
-/

/-! ## Serial allocator: `CertificateAuthorityService.get_serial_for_certificate`
(crypto.py lines 1368-1424).

A CA hierarchy is a tree: each node carries the CA's own stored serial
(`None` for legacy rows), the serials of the certificates signed directly
by that CA (the `system.certificate` rows whose `signedby` is that CA),
and the child CAs (the `system.certificateauthority` rows whose `signedby`
is that CA).  The forest of children is a mutual inductive so that all
functions below are structurally recursive and computable. -/

mutual
inductive CANode : Type where
  | node : Option Nat → List (Option Nat) → CAForest → CANode

inductive CAForest : Type where
  | nil : CAForest
  | cons : CANode → CAForest → CAForest
end

def CANode.serial : CANode → Option Nat
  | CANode.node s _ _ => s

def CANode.certSerials : CANode → List (Option Nat)
  | CANode.node _ cs _ => cs

mutual
/-- `child_serials(ca_id)` of the source: serials of every certificate and CA
under `ca_id`, depth first over the child CAs, then the certificates signed
directly by `ca_id`, then `ca_id`'s own serial. -/
def child_serials : CANode → List (Option Nat)
  | CANode.node s cs ch => childForestSerials ch ++ cs ++ [s]

def childForestSerials : CAForest → List (Option Nat)
  | CAForest.nil => []
  | CAForest.cons c rest => child_serials c ++ childForestSerials rest
end

mutual
/-- Every serial slot stored anywhere in the hierarchy rooted at a node:
the node's own serial, its directly signed certificates, and recursively
every descendant CA.  Used to state the specification. -/
def allSerials : CANode → List (Option Nat)
  | CANode.node s cs ch => s :: cs ++ allForestSerials ch

def allForestSerials : CAForest → List (Option Nat)
  | CAForest.nil => []
  | CAForest.cons c rest => allSerials c ++ allForestSerials rest
end

/-- Python's `list(filter(None, xs))` on a list of optional serials: drops
`None` and `0` (both falsy). -/
def pyFilterTruthy (l : List (Option Nat)) : List Nat :=
  l.filterMap fun s =>
    match s with
    | none => none
    | some n => if n = 0 then none else some n

/-- Python's `max` over a list of naturals (the source only calls it on a
non-empty list, where the `0` base is inert). -/
def maxList (l : List Nat) : Nat := l.foldr Nat.max 0

/-- The `else` branch of `get_serial_for_certificate`, reached once the
recursion has arrived at the top-level root:
`ca_signed_certs = cert_serials(ca_id)` extended with `child_serials(ca_id)`,
then `filter(None, ...)`, then `max(...) + 1` or `int(serial or 0) + 1`. -/
def get_serial_at_root (ca : CANode) : Nat :=
  let ca_signed_certs := pyFilterTruthy (ca.certSerials ++ child_serials ca)
  if ca_signed_certs = [] then ca.serial.getD 0 + 1
  else maxList ca_signed_certs + 1

/-- `get_serial_for_certificate(ca_id)`: if the CA has a `signedby` parent,
recurse to the parent (the list argument is the chain of ancestors from the
CA's parent up to the top-level root); at the root, aggregate. -/
def get_serial_for_certificate : CANode → List CANode → Nat
  | ca, [] => get_serial_at_root ca
  | _, parent :: rest => get_serial_for_certificate parent rest

/-- The top-level root that the `signedby` walk of
`get_serial_for_certificate` ends at. -/
def rootOf : CANode → List CANode → CANode
  | ca, [] => ca
  | _, parent :: rest => rootOf parent rest

/-- All non-null serials in a hierarchy (the "collected set" of the claim). -/
def hierarchySerials (ca : CANode) : List Nat := (allSerials ca).filterMap id

/-! ## Entity extender: `CertificateService.cert_extend`, chain resolution
(crypto.py lines 273-312).

The certificate blobs handed to `crypto.load_certificate` are modelled
abstractly: a blob is falsy (an empty/absent string, skipped by `if c:`),
loads successfully (and re-dumps to the given normalized PEM text), or
raises `crypto.Error` on load. -/

inductive Blob : Type where
  | falsy : Blob
  | ok : String → Blob
  | corrupt : Blob
  deriving DecidableEq

/-- The decode loop of `cert_extend` (lines 300-312): one `try` wraps the
whole `for c in certs` loop, so a load failure ends the loop, keeping the
entries appended so far. -/
def buildChainList : List Blob → List String
  | [] => []
  | Blob.falsy :: rest => buildChainList rest
  | Blob.ok s :: rest => s :: buildChainList rest
  | Blob.corrupt :: _ => []

/-- The normalized PEM texts of the blobs in a list that load successfully. -/
def blobPems (l : List Blob) : List String :=
  l.filterMap fun b =>
    match b with
    | Blob.ok s => some s
    | _ => none

/-- The `cert_type` constants of the source (`CA_TYPE_*`, `CERT_TYPE_*`). -/
inductive CertType : Type where
  | caExisting
  | caInternal
  | caIntermediate
  | certExisting
  | certInternal
  | certCsr
  deriving DecidableEq

/-- The value `cert_issuer(cert)` assigns, as a tag: the three sentinel
strings, or the record's resolved `signedby` parent. -/
inductive IssuerTag : Type where
  | external
  | selfSigned
  | pendingSignature
  | fromSignedby
  deriving DecidableEq

/-- `cert_issuer` of `cert_extend`: existing records map to `"external"`,
an internal CA to `"self-signed"`, internal certificates and intermediate
CAs to their `signedby` record, a CSR to `"external - signature pending"`. -/
def cert_issuer_tag : CertType → IssuerTag
  | CertType.caExisting => IssuerTag.external
  | CertType.certExisting => IssuerTag.external
  | CertType.caInternal => IssuerTag.selfSigned
  | CertType.certInternal => IssuerTag.fromSignedby
  | CertType.caIntermediate => IssuerTag.fromSignedby
  | CertType.certCsr => IssuerTag.pendingSignature

/-- A stored record as `cert_extend` sees it: its certificate blob and its
`cert_type`.  The resolved `signedby` chain (each record's extended parent,
then the parent's parent, ...) is passed alongside as a list; an empty list
models a null `signedby`. -/
structure CertRecord : Type where
  certificate : Blob
  type : CertType
  deriving DecidableEq

/-- The `while signing_CA not in ["external", "self-signed",
"external - signature pending", None]` walk (lines 292-298): starting from
the leaf's issuer, append each parent's certificate and move to that
parent's issuer. -/
def walk_signing_chain (r : CertRecord) (parents : List CertRecord) : List Blob :=
  if cert_issuer_tag r.type = IssuerTag.fromSignedby then
    match parents with
    | [] => []
    | p :: rest => p.certificate :: walk_signing_chain p rest
  else []

/-- `chain_list` as computed by `cert_extend` (lines 287-312): if the
record's `chain` flag is set, decode the PEM blocks found in the stored
blob in document order; otherwise decode the leaf certificate followed by
the certificates collected by the `signedby` walk. -/
def cert_extend_chain_list (chainFlag : Bool) (storedPemBlocks : List Blob)
    (r : CertRecord) (parents : List CertRecord) : List String :=
  if chainFlag then buildChainList storedPemBlocks
  else buildChainList (r.certificate :: walk_signing_chain r parents)

/-! ## Name validation and the creation dispatchers
(`validate_cert_name` lines 50-73, `_validate_common_attributes` lines
108-204, `CertificateService.do_create` lines 800-951,
`CertificateAuthorityService.do_create` lines 1459-1548). -/

/-- The reserved internal keywords of `validate_cert_name`. -/
def reservedNames : List String := ["external", "self-signed", "external - signature pending"]

/-- A character allowed by the pattern `[a-z0-9_\-]` with `re.I`. -/
def isCertNameChar (c : Char) : Bool := c.isAlpha || c.isDigit || c = '_' || c = '-'

/-- `re.search(r'^[a-z0-9_\-]+$', cert_name or '', re.I)` succeeds:
the name is non-empty and made of ASCII letters, digits, `_` and `-`
(checked over the string's character list). -/
def cert_name_re_matches (s : String) : Bool := !s.data.isEmpty && s.data.all isCertNameChar

/-- `validate_cert_name`: `datastoreNames` are the `cert_name` values in
the datastore the caller passed (each service passes its own datastore);
errors are (field, message) pairs accumulated into `verrors`. -/
def validate_cert_name (cert_name : String) (datastoreNames : List String)
    (field : String) : List (String × String) :=
  (if cert_name ∈ datastoreNames
   then [(field, "A certificate with this name already exists")] else []) ++
  (if cert_name ∈ reservedNames
   then [(field, cert_name ++ " is a reserved internal keyword for Certificate Management")]
   else []) ++
  (if cert_name_re_matches cert_name then []
   else [(field, "Use alphanumeric characters, _ and -.")])

/-- What the crypto library reports about a submitted `certificate` PEM
string: whether `RE_CERTIFICATE.findall` finds a block, and whether
`crypto.load_certificate` succeeds. -/
structure CertBlobInfo : Type where
  hasPemBlock : Bool
  loads : Bool
  deriving DecidableEq

/-- What the crypto library reports about a submitted `privatekey` (with
the submitted `passphrase`): whether `load_private_key` succeeds, and
whether `SSL.Context.check_privatekey` accepts it against the submitted
certificate. -/
structure KeyInfo : Type where
  decodes : Bool
  matchesCert : Bool
  deriving DecidableEq

/-- The fields of a create request that `_validate_common_attributes` and
`validate_cert_name` inspect (absent/falsy fields are `none`). -/
structure CreateData : Type where
  name : String
  country : Option String
  certificate : Option CertBlobInfo
  privatekey : Option KeyInfo
  key_length : Option Nat
  signedby : Option Nat
  CSR : Option Bool
  csr_id : Option Nat
  deriving DecidableEq

/-- A `system.certificateauthority` row as the `signedby` existence check
queries it. -/
structure CAStoreEntry : Type where
  id : Nat
  hasCertificate : Bool
  hasPrivatekey : Bool
  deriving DecidableEq

/-- A `system.certificate` row as the `csr_id` existence check queries it. -/
structure CertStoreEntry : Type where
  id : Nat
  hasCSR : Bool
  deriving DecidableEq

/-- The datastore state the validations consult. -/
structure Datastore : Type where
  validCountries : List String
  caStore : List CAStoreEntry
  certStore : List CertStoreEntry
  certNames : List String
  caNames : List String
  deriving DecidableEq

/-- `_validate_common_attributes` (lines 108-204): country validity,
certificate PEM well-formedness, private-key/passphrase decodability, key
length in {1024, 2048, 4096}, signing-CA existence with certificate and
private key present, CSR well-formedness, `csr_id` existence, and — when
both a certificate and a private key are present and neither already has
an error — the cryptographic match check between them. -/
def validate_common_attributes (env : Datastore) (d : CreateData)
    (schema : String) : List (String × String) :=
  let countryErrs :=
    match d.country with
    | none => []
    | some c =>
      if c ∈ env.validCountries then []
      else [(schema ++ ".country", "Country " ++ c ++ " is not valid")]
  let certErrs :=
    match d.certificate with
    | none => []
    | some ci =>
      if !ci.hasPemBlock then [(schema ++ ".certificate", "Not a valid certificate")]
      else if !ci.loads then [(schema ++ ".certificate", "Certificate not in PEM format")]
      else []
  let keyErrs :=
    match d.privatekey with
    | none => []
    | some ki =>
      if ki.decodes then []
      else [(schema ++ ".privatekey",
        "Please provide a valid private key with matching passphrase ( if any )")]
  let keyLengthErrs :=
    match d.key_length with
    | none => []
    | some kl =>
      if kl = 1024 ∨ kl = 2048 ∨ kl = 4096 then []
      else [(schema ++ ".key_length", "Key length must be a valid value ( 1024, 2048, 4096 )")]
  let signedbyErrs :=
    match d.signedby with
    | none => []
    | some caId =>
      if env.caStore.any fun ca => (ca.id == caId) && ca.hasCertificate && ca.hasPrivatekey
      then []
      else [(schema ++ ".signedby", "Please provide a valid signing authority")]
  let csrErrs :=
    match d.CSR with
    | none => []
    | some loads =>
      if loads then [] else [(schema ++ ".CSR", "Please provide a valid CSR")]
  let csrIdErrs :=
    match d.csr_id with
    | none => []
    | some cid =>
      if env.certStore.any fun c => (c.id == cid) && c.hasCSR then []
      else [(schema ++ ".csr_id", "Please provide a valid csr_id which has a valid CSR filed")]
  let priorErrs := countryErrs ++ certErrs ++ keyErrs ++ keyLengthErrs ++
    signedbyErrs ++ csrErrs ++ csrIdErrs
  let matchErrs :=
    match d.certificate, d.privatekey with
    | some _, some ki =>
      if priorErrs.all fun e =>
          !(e.1 == schema ++ ".certificate" || e.1 == schema ++ ".privatekey") then
        if ki.matchesCert then []
        else [(schema ++ ".privatekey", "Private key does not match certificate")]
      else []
    | _, _ => []
  priorErrs ++ matchErrs

/-- The side effects of a create workflow after validation has passed. -/
inductive CreateEffect : Type where
  | variantRun
  | datastoreInsert
  | sslServiceStart
  deriving DecidableEq

/-- `CertificateService.do_create` (lines 914-951): run the common
attribute validation, then `validate_cert_name` against
`system.certificate`, raise the accumulated batch if non-empty; only then
dispatch the `create_type` variant, insert the row and start the `ssl`
service. -/
def certificate_do_create (env : Datastore) (d : CreateData) :
    List CreateEffect × Option (List (String × String)) :=
  let verrors := validate_common_attributes env d "certificate_create" ++
    validate_cert_name d.name env.certNames "certificate_create.name"
  if verrors = [] then
    ([CreateEffect.variantRun, CreateEffect.datastoreInsert, CreateEffect.sslServiceStart],
      none)
  else ([], some verrors)

/-- `CertificateAuthorityService.do_create` (lines 1522-1548): same shape,
with `validate_cert_name` run against `system.certificateauthority`. -/
def certificateauthority_do_create (env : Datastore) (d : CreateData) :
    List CreateEffect × Option (List (String × String)) :=
  let verrors := validate_common_attributes env d "certificate_authority_create" ++
    validate_cert_name d.name env.caNames "certificate_authority_create.name"
  if verrors = [] then
    ([CreateEffect.variantRun, CreateEffect.datastoreInsert, CreateEffect.sslServiceStart],
      none)
  else ([], some verrors)

/-! ## ACME issuance preconditions: `acme_issue_certificate`
(crypto.py lines 628-684). -/

/-- The steps `acme_issue_certificate` performs after its `dns_mapping`
validation: `get_acme_client_and_key` (account registration lookup or
creation), `new_order`, `handle_authorizations`, `poll_and_finalize`. -/
inductive AcmeEffect : Type where
  | accountResolution
  | orderSubmission
  | authorizationHandling
  | finalization
  deriving DecidableEq

/-- The `dns_mapping` validation loop of `acme_issue_certificate` (lines
637-663): for every CSR domain, a missing mapping entry, an unknown
authenticator id, a trailing period, and a misplaced wildcard each add an
error; every mapping entry for a domain absent from the CSR adds one. -/
def acme_dns_mapping_errors (domains : List String) (dns_mapping : List (String × Nat))
    (authenticator_ids : List Nat) : List (String × String) :=
  (domains.map fun domain =>
    (match dns_mapping.lookup domain with
     | none =>
       [("acme_create.dns_mapping", "Please provide DNS authenticator id for " ++ domain)]
     | some a =>
       if authenticator_ids.contains a then []
       else [("acme_create.dns_mapping",
         "Provided DNS Authenticator id for " ++ domain ++ " does not exist")]) ++
    (if domain.data.getLast? == some '.' then
      [("acme_create.dns_mapping", "Domain " ++ domain ++ " name cannot end with a period")]
     else []) ++
    (if domain.data.contains '*' && !(domain.data.take 2 == ['*', '.']) then
      [("acme_create.dns_mapping",
        "Wildcards must be at the start of domain name followed by a period")]
     else [])).flatten ++
  (dns_mapping.map fun entry =>
    if domains.contains entry.1 then []
    else [("acme_create.dns_mapping", entry.1 ++ " not specified in the CSR")]).flatten

/-- `acme_issue_certificate`: raise the accumulated `dns_mapping` batch if
non-empty; only then resolve the ACME account, submit the order, handle
authorizations and finalize. -/
def acme_issue_certificate (domains : List String) (dns_mapping : List (String × Nat))
    (authenticator_ids : List Nat) :
    List AcmeEffect × Option (List (String × String)) :=
  let verrors := acme_dns_mapping_errors domains dns_mapping authenticator_ids
  if verrors = [] then
    ([AcmeEffect.accountResolution, AcmeEffect.orderSubmission,
      AcmeEffect.authorizationHandling, AcmeEffect.finalization], none)
  else ([], some verrors)

/-! ## Renewal sweep: `CertificateService.renew_certs`
(crypto.py lines 734-773). -/

/-- An ACME certificate as the sweep sees it: whether its remaining
validity makes it due (`(until - now).days < renew_days`), and whether
re-running `acme_issue_certificate` on it raises. -/
structure AcmeCertState : Type where
  id : Nat
  dueForRenewal : Bool
  issuanceRaises : Bool
  deriving DecidableEq

/-- `renew_certs`: iterate over the ACME certificates; for each due one,
re-run issuance (no per-item exception handling: a raise propagates out of
the loop).  Returns the ids whose renewal was attempted and whether the
sweep was aborted by an exception. -/
def renew_certs : List AcmeCertState → List Nat × Bool
  | [] => ([], false)
  | c :: rest =>
    if c.dueForRenewal then
      if c.issuanceRaises then ([c.id], true)
      else
        let r := renew_certs rest
        (c.id :: r.1, r.2)
    else renew_certs rest

/-! ## Deletion: `CertificateService.do_delete` (crypto.py lines 1270-1339). -/

/-- A stored certificate row as `do_delete` consults it. -/
structure StoredCert : Type where
  id : Nat
  isAcme : Bool
  revokeRaises : Bool
  deriving DecidableEq

/-- The side effects of `do_delete`. -/
inductive DeleteEffect : Type where
  | revocationRequest
  | datastoreDelete
  | sslServiceStart
  deriving DecidableEq

/-- The failures `do_delete` can raise. -/
inductive DeleteOutcome : Type where
  | uiCertificateInUse
  | instanceNotFound
  | revocationFailed
  deriving DecidableEq

/-- `CertificateService.do_delete`: first reject the certificate currently
configured as `ui_certificate`; otherwise, for an ACME certificate request
revocation (a revocation failure blocks the delete unless `force`); then
delete the row and start the `ssl` service.  Returns the effects
performed, the error raised if any, and the resulting store. -/
def certificate_do_delete (uiCertificateId : Nat) (store : List StoredCert)
    (id : Nat) (force : Bool) :
    List DeleteEffect × Option DeleteOutcome × List StoredCert :=
  if uiCertificateId = id then ([], some DeleteOutcome.uiCertificateInUse, store)
  else
    match store.find? fun c => c.id == id with
    | none => ([], some DeleteOutcome.instanceNotFound, store)
    | some cert =>
      if cert.isAcme then
        if cert.revokeRaises && !force then
          ([DeleteEffect.revocationRequest], some DeleteOutcome.revocationFailed, store)
        else
          ([DeleteEffect.revocationRequest, DeleteEffect.datastoreDelete,
            DeleteEffect.sslServiceStart], none, store.filter fun c => !(c.id == id))
      else
        ([DeleteEffect.datastoreDelete, DeleteEffect.sslServiceStart], none,
          store.filter fun c => !(c.id == id))

/-! ## Updates: `CertificateService.do_update` (crypto.py lines 1184-1250)
and `CertificateAuthorityService.do_update` (lines 1768-1838). -/

/-- The side effects of `do_update`. -/
inductive UpdateEffect : Type where
  | datastoreUpdate
  | sslServiceStart
  deriving DecidableEq

/-- `CertificateService.do_update`: merge the submitted data over the
current record; only when the merged name differs from the current one,
validate it and write the record back and start `ssl`.  Returns the
effects, the validation errors raised if any, and the name of the record
the final `_get_instance(id)` returns. -/
def certificate_do_update (datastoreNames : List String) (oldName : String)
    (submittedName : Option String) :
    List UpdateEffect × Option (List (String × String)) × String :=
  let newName := submittedName.getD oldName
  if newName = oldName then ([], none, oldName)
  else
    let verrors := validate_cert_name newName datastoreNames "certificate_update.name"
    if verrors = [] then
      ([UpdateEffect.datastoreUpdate, UpdateEffect.sslServiceStart], none, newName)
    else ([], some verrors, oldName)

/-- `CertificateAuthorityService.do_update`: when `create_type` is
`CA_SIGN_CSR` the call dispatches to the legacy CSR-signing path (returned
as `none` here, out of the frame of the update claim); otherwise the same
name-change logic as the certificate service. -/
def certificateauthority_do_update (datastoreNames : List String) (oldName : String)
    (submittedName : Option String) (signCsrDispatch : Bool) :
    Option (List UpdateEffect × Option (List (String × String)) × String) :=
  if signCsrDispatch then none
  else
    let newName := submittedName.getD oldName
    if newName = oldName then some ([], none, oldName)
    else
      let verrors := validate_cert_name newName datastoreNames "certificate_authority_update.name"
      if verrors = [] then
        some ([UpdateEffect.datastoreUpdate, UpdateEffect.sslServiceStart], none, newName)
      else some ([], some verrors, oldName)

/-! ## Helper lemmas -/

theorem mem_maxList_le {a : Nat} {l : List Nat} (h : a ∈ l) : a ≤ maxList l := by
  induction l with
  | nil => cases h
  | cons b t ih =>
    rcases List.mem_cons.mp h with rfl | h2
    · exact Nat.le_max_left a (maxList t)
    · exact Nat.le_trans (ih h2) (Nat.le_max_right b (maxList t))

theorem maxList_le {l : List Nat} {b : Nat} (h : ∀ a ∈ l, a ≤ b) : maxList l ≤ b := by
  induction l with
  | nil => exact Nat.zero_le b
  | cons c t ih =>
    have hc : Nat.max c (maxList t) ≤ b :=
      Nat.max_le.mpr
        ⟨h c (List.mem_cons_self c t), ih fun a ha => h a (List.mem_cons_of_mem c ha)⟩
    exact hc

theorem maxList_mem {l : List Nat} (h : l ≠ []) : maxList l ∈ l := by
  induction l with
  | nil => exact absurd rfl h
  | cons c t ih =>
    rcases Nat.le_total (maxList t) c with hle | hle
    · have hc : maxList (c :: t) = c := Nat.max_eq_left hle
      rw [hc]
      exact List.mem_cons_self c t
    · have hc : maxList (c :: t) = maxList t := Nat.max_eq_right hle
      rw [hc]
      by_cases ht : t = []
      · subst ht
        have hc0 : c = 0 := Nat.le_zero.mp hle
        subst hc0
        simp [maxList]
      · exact List.mem_cons_of_mem c (ih ht)

mutual
theorem mem_child_serials (s : Option Nat) (ca : CANode) :
    s ∈ child_serials ca ↔ s ∈ allSerials ca := by
  cases ca with
  | node sr cs ch =>
    have hch := mem_childForestSerials s ch
    simp only [child_serials, allSerials, List.mem_append, List.mem_cons,
      List.mem_singleton, hch] at *
    tauto

theorem mem_childForestSerials (s : Option Nat) (f : CAForest) :
    s ∈ childForestSerials f ↔ s ∈ allForestSerials f := by
  cases f with
  | nil => exact Iff.rfl
  | cons c rest =>
    have h1 := mem_child_serials s c
    have h2 := mem_childForestSerials s rest
    simp only [childForestSerials, allForestSerials, List.mem_append, h1, h2]
end

theorem mem_hierarchySerials {n : Nat} {ca : CANode} :
    n ∈ hierarchySerials ca ↔ some n ∈ allSerials ca := by
  simp [hierarchySerials, List.mem_filterMap]

theorem mem_pyFilterTruthy {n : Nat} {l : List (Option Nat)} :
    n ∈ pyFilterTruthy l ↔ some n ∈ l ∧ n ≠ 0 := by
  simp only [pyFilterTruthy, List.mem_filterMap]
  constructor
  · rintro ⟨a, ha, hfa⟩
    match a, hfa with
    | some m, hfa =>
      by_cases hm : m = 0
      · simp [hm] at hfa
      · simp only [hm, if_false] at hfa
        cases hfa
        exact ⟨ha, hm⟩
  · rintro ⟨ha, hn⟩
    exact ⟨some n, ha, by simp [hn]⟩

theorem serial_mem_allSerials (ca : CANode) : ca.serial ∈ allSerials ca := by
  cases ca with
  | node s cs ch => simp [CANode.serial, allSerials]

theorem mem_rootFiltered {n : Nat} {ca : CANode} :
    n ∈ pyFilterTruthy (ca.certSerials ++ child_serials ca) ↔
      n ∈ hierarchySerials ca ∧ n ≠ 0 := by
  rw [mem_pyFilterTruthy, mem_hierarchySerials]
  constructor
  · rintro ⟨hmem, hn⟩
    refine ⟨?_, hn⟩
    rcases List.mem_append.mp hmem with hcs | hcw
    · cases ca with
      | node s cs ch =>
        simp only [CANode.certSerials] at hcs
        simp [allSerials, List.mem_append, hcs]
    · exact (mem_child_serials _ ca).mp hcw
  · rintro ⟨hmem, hn⟩
    exact ⟨List.mem_append.mpr (Or.inr ((mem_child_serials _ ca).mpr hmem)), hn⟩

theorem get_serial_at_root_gt (ca : CANode) :
    ∀ n ∈ hierarchySerials ca, n < get_serial_at_root ca := by
  intro n hn
  unfold get_serial_at_root
  by_cases hE : pyFilterTruthy (ca.certSerials ++ child_serials ca) = []
  · simp only [hE, if_pos rfl]
    rcases Nat.eq_zero_or_pos n with rfl | hp
    · exact Nat.succ_pos _
    · exfalso
      have : n ∈ pyFilterTruthy (ca.certSerials ++ child_serials ca) :=
        mem_rootFiltered.mpr ⟨hn, Nat.pos_iff_ne_zero.mp hp⟩
      rw [hE] at this
      cases this
  · simp only [hE, if_neg hE]
    rcases Nat.eq_zero_or_pos n with rfl | hp
    · exact Nat.succ_pos _
    · have hmem : n ∈ pyFilterTruthy (ca.certSerials ++ child_serials ca) :=
        mem_rootFiltered.mpr ⟨hn, Nat.pos_iff_ne_zero.mp hp⟩
      exact Nat.lt_succ_of_le (mem_maxList_le hmem)

theorem get_serial_at_root_empty (ca : CANode)
    (h : hierarchySerials ca = []) :
    get_serial_at_root ca = ca.serial.getD 0 + 1 := by
  unfold get_serial_at_root
  have hE : pyFilterTruthy (ca.certSerials ++ child_serials ca) = [] := by
    rw [List.eq_nil_iff_forall_not_mem]
    intro n hmem
    have := (mem_rootFiltered.mp hmem).1
    rw [h] at this
    cases this
  simp [hE]

theorem get_serial_at_root_nonempty (ca : CANode)
    (h : hierarchySerials ca ≠ []) :
    get_serial_at_root ca = maxList (hierarchySerials ca) + 1 := by
  unfold get_serial_at_root
  by_cases hE : pyFilterTruthy (ca.certSerials ++ child_serials ca) = []
  · -- every collected serial is zero: the fallback and the max agree at 1
    have hzero : ∀ n ∈ hierarchySerials ca, n = 0 := by
      intro n hn
      by_contra hne
      have : n ∈ pyFilterTruthy (ca.certSerials ++ child_serials ca) :=
        mem_rootFiltered.mpr ⟨hn, hne⟩
      rw [hE] at this
      cases this
    have hmax : maxList (hierarchySerials ca) = 0 :=
      Nat.le_antisymm (maxList_le fun a ha => Nat.le_of_eq (hzero a ha)) (Nat.zero_le _)
    have hser : ca.serial.getD 0 = 0 := by
      cases hs : ca.serial with
      | none => rfl
      | some k =>
        have hk : k ∈ hierarchySerials ca := by
          rw [mem_hierarchySerials, ← hs]
          exact serial_mem_allSerials ca
        simpa using hzero k hk
    simp [hE, hser, hmax]
  · have hle1 : maxList (pyFilterTruthy (ca.certSerials ++ child_serials ca)) ≤
        maxList (hierarchySerials ca) :=
      maxList_le fun a ha => mem_maxList_le (mem_rootFiltered.mp ha).1
    have hM : maxList (hierarchySerials ca) ∈ hierarchySerials ca := maxList_mem h
    have hMne : maxList (hierarchySerials ca) ≠ 0 := by
      intro h0
      rcases List.exists_mem_of_ne_nil _ hE with ⟨a, ha⟩
      rcases mem_rootFiltered.mp ha with ⟨haH, hane⟩
      have : a ≤ 0 := h0 ▸ mem_maxList_le haH
      exact hane (Nat.le_zero.mp this)
    have hle2 : maxList (hierarchySerials ca) ≤
        maxList (pyFilterTruthy (ca.certSerials ++ child_serials ca)) :=
      mem_maxList_le (mem_rootFiltered.mpr ⟨hM, hMne⟩)
    simp [hE, Nat.le_antisymm hle1 hle2]

theorem get_serial_walk (ca : CANode) (ancestors : List CANode) :
    get_serial_for_certificate ca ancestors = get_serial_at_root (rootOf ca ancestors) := by
  induction ancestors generalizing ca with
  | nil => rfl
  | cons p rest ih => exact ih p

/-! ## C1: serial allocation across a CA hierarchy -/

/-- C1: for every CA hierarchy, `certificateauthority.get_serial_for_certificate`
returns an integer strictly greater than every non-null serial already used
anywhere in the hierarchy rooted at the target CA's top-level root (the
root's own serial, every certificate signed by any CA in the tree, and
every descendant CA's serial); it returns `max(collected) + 1` when the
collected set is non-empty and `(root serial or 0) + 1` when it is empty;
in particular, after CA `root` (serial 1) signs certificate `leaf1`
(serial 2), requesting a new serial for `root` returns 3. -/
theorem get_serial_for_certificate_spec (ca : CANode) (ancestors : List CANode) :
    (∀ n ∈ hierarchySerials (rootOf ca ancestors),
      n < get_serial_for_certificate ca ancestors) ∧
    (hierarchySerials (rootOf ca ancestors) = [] →
      get_serial_for_certificate ca ancestors = (rootOf ca ancestors).serial.getD 0 + 1) ∧
    (hierarchySerials (rootOf ca ancestors) ≠ [] →
      get_serial_for_certificate ca ancestors =
        maxList (hierarchySerials (rootOf ca ancestors)) + 1) ∧
    get_serial_for_certificate (CANode.node (some 1) [some 2] CAForest.nil) [] = 3 := by
  rw [get_serial_walk]
  refine ⟨get_serial_at_root_gt _, get_serial_at_root_empty _, get_serial_at_root_nonempty _, ?_⟩
  decide

/-- Concrete instantiations of `get_serial_for_certificate_spec`, discharging
its hypotheses: the scenario hierarchy (root serial 1, one signed
certificate with serial 2) has a non-empty collected set and gets serial
`max + 1 = 3`; a hierarchy with no serials at all falls back to `0 + 1`. -/
theorem get_serial_for_certificate_spec_witness :
    2 < get_serial_for_certificate (CANode.node (some 1) [some 2] CAForest.nil) [] ∧
    get_serial_for_certificate (CANode.node (some 1) [some 2] CAForest.nil) [] =
      maxList (hierarchySerials (rootOf (CANode.node (some 1) [some 2] CAForest.nil) [])) + 1 ∧
    get_serial_for_certificate (CANode.node none [] CAForest.nil) [] =
      (rootOf (CANode.node none [] CAForest.nil) []).serial.getD 0 + 1 :=
  ⟨(get_serial_for_certificate_spec (CANode.node (some 1) [some 2] CAForest.nil) []).1
      2 (by decide),
   (get_serial_for_certificate_spec (CANode.node (some 1) [some 2] CAForest.nil) []).2.2.1
      (by decide),
   (get_serial_for_certificate_spec (CANode.node none [] CAForest.nil) []).2.1
      (by decide)⟩

/-! ## C2: decode failures while building `chain_list` -/

/-- C2 counterexample: in a chain whose middle blob fails to decode, the
blob after the corrupt one decodes fine yet does not appear in
`chain_list` — the single `try` around the loop aborts it. -/
theorem cert_extend_decode_failure_counterexample :
    cert_extend_chain_list true [Blob.ok "good1", Blob.corrupt, Blob.ok "good2"]
        (CertRecord.mk (Blob.ok "good1") CertType.certExisting) [] = ["good1"] ∧
    "good2" ∉ cert_extend_chain_list true [Blob.ok "good1", Blob.corrupt, Blob.ok "good2"]
        (CertRecord.mk (Blob.ok "good1") CertType.certExisting) [] := by
  constructor
  · rfl
  · decide

theorem buildChainList_stops_at_corrupt (l1 l2 : List Blob) (h : Blob.corrupt ∉ l1) :
    buildChainList (l1 ++ Blob.corrupt :: l2) = blobPems l1 := by
  induction l1 with
  | nil => simp [buildChainList, blobPems]
  | cons b t ih =>
    have hb : b ≠ Blob.corrupt := fun hb => h (hb ▸ List.mem_cons_self b t)
    have ht : Blob.corrupt ∉ t := fun hm => h (List.mem_cons_of_mem b hm)
    cases b with
    | falsy => simpa [buildChainList, blobPems] using ih ht
    | ok s => simpa [buildChainList, blobPems] using ih ht
    | corrupt => exact absurd rfl hb

/-- C2 (amended): a decode failure while building `chain_list` keeps the
entries decoded before it but aborts the rest of the chain: for a stored
chain with a corrupt blob, `chain_list` is exactly the decoded blobs
strictly before the first corrupt one, and blobs after it are dropped even
when they parse. -/
theorem cert_extend_decode_failure_keeps_prior (l1 l2 : List Blob) (r : CertRecord)
    (h : Blob.corrupt ∉ l1) :
    cert_extend_chain_list true (l1 ++ Blob.corrupt :: l2) r [] = blobPems l1 := by
  simpa [cert_extend_chain_list] using buildChainList_stops_at_corrupt l1 l2 h

/-- Concrete instantiation of `cert_extend_decode_failure_keeps_prior` at a
three-blob chain whose middle blob is corrupt. -/
theorem cert_extend_decode_failure_keeps_prior_witness :
    cert_extend_chain_list true ([Blob.ok "first"] ++ Blob.corrupt :: [Blob.ok "third"])
        (CertRecord.mk (Blob.ok "first") CertType.certExisting) [] =
      blobPems [Blob.ok "first"] :=
  cert_extend_decode_failure_keeps_prior [Blob.ok "first"] [Blob.ok "third"]
    (CertRecord.mk (Blob.ok "first") CertType.certExisting) (by decide)

/-! ## C6 and C7: chain resolution in `cert_extend` -/

theorem buildChainList_all_ok (l : List String) :
    buildChainList (l.map Blob.ok) = l := by
  induction l with
  | nil => rfl
  | cons s t ih => simpa [buildChainList] using ih

theorem walk_signing_chain_to_root (midPems : List String) (rootPem : String)
    (r : CertRecord) (hr : cert_issuer_tag r.type = IssuerTag.fromSignedby) :
    walk_signing_chain r
        ((midPems.map fun s => CertRecord.mk (Blob.ok s) CertType.caIntermediate) ++
          [CertRecord.mk (Blob.ok rootPem) CertType.caInternal]) =
      midPems.map Blob.ok ++ [Blob.ok rootPem] := by
  induction midPems generalizing r with
  | nil =>
    simp only [List.map_nil, List.nil_append]
    rw [walk_signing_chain, if_pos hr]
    rfl
  | cons s t ih =>
    have hmid : cert_issuer_tag CertType.caIntermediate = IssuerTag.fromSignedby := rfl
    simp only [List.map_cons, List.cons_append, walk_signing_chain, hr]
    simpa using ih (CertRecord.mk (Blob.ok s) CertType.caIntermediate) hmid

/-- C6: for a record with the `chain` flag false whose `signedby` reference
resolves (possibly through intermediate CAs) to a self-signed internal CA
root, `cert_extend` produces a `chain_list` of the leaf certificate
followed by each parent CA's certificate up to and including the root; a
leaf signed directly by a self-signed internal CA yields exactly
`[leaf, root]`; and the issuer tag resolves to `"self-signed"` only at the
internal-CA root, not at the leaf or the intermediates. -/
theorem cert_extend_signedby_chain_spec (leafPem rootPem : String)
    (midPems : List String) (storedPemBlocks : List Blob) :
    cert_extend_chain_list false storedPemBlocks
        (CertRecord.mk (Blob.ok leafPem) CertType.certInternal)
        ((midPems.map fun s => CertRecord.mk (Blob.ok s) CertType.caIntermediate) ++
          [CertRecord.mk (Blob.ok rootPem) CertType.caInternal]) =
      leafPem :: midPems ++ [rootPem] ∧
    cert_extend_chain_list false storedPemBlocks
        (CertRecord.mk (Blob.ok leafPem) CertType.certInternal)
        [CertRecord.mk (Blob.ok rootPem) CertType.caInternal] = [leafPem, rootPem] ∧
    cert_issuer_tag CertType.caInternal = IssuerTag.selfSigned ∧
    cert_issuer_tag CertType.caIntermediate ≠ IssuerTag.selfSigned ∧
    cert_issuer_tag CertType.certInternal ≠ IssuerTag.selfSigned := by
  refine ⟨?_, ?_, rfl, by decide, by decide⟩
  · have hwalk := walk_signing_chain_to_root midPems rootPem
      (CertRecord.mk (Blob.ok leafPem) CertType.certInternal) rfl
    have hlist : Blob.ok leafPem :: (midPems.map Blob.ok ++ [Blob.ok rootPem]) =
        (leafPem :: midPems ++ [rootPem]).map Blob.ok := by
      simp
    rw [cert_extend_chain_list, if_neg (by simp)]
    rw [hwalk, hlist, buildChainList_all_ok]
  · have hwalk := walk_signing_chain_to_root [] rootPem
      (CertRecord.mk (Blob.ok leafPem) CertType.certInternal) rfl
    simp only [List.map_nil, List.nil_append] at hwalk
    rw [cert_extend_chain_list, if_neg (by simp)]
    rw [hwalk]
    rfl

/-- C7: for a record whose `chain` flag is true and whose stored blob holds
exactly two PEM certificate blocks, `cert_extend` returns a `chain_list`
of exactly the two decoded entries in document order, regardless of the
record's `signedby` hierarchy. -/
theorem cert_extend_chain_flag_spec (a b : String) (r : CertRecord)
    (parents : List CertRecord) :
    cert_extend_chain_list true [Blob.ok a, Blob.ok b] r parents = [a, b] := by
  rfl

/-! ## C3: name validation scope -/

theorem validate_cert_name_flags (n : String) (names : List String) (field : String)
    (h : n ∈ names ∨ n ∈ reservedNames ∨ cert_name_re_matches n = false) :
    ∃ m, (field, m) ∈ validate_cert_name n names field := by
  rcases h with h | h | h
  · exact ⟨"A certificate with this name already exists", by
      simp [validate_cert_name, h]⟩
  · exact ⟨n ++ " is a reserved internal keyword for Certificate Management", by
      simp [validate_cert_name, h]⟩
  · exact ⟨"Use alphanumeric characters, _ and -.", by
      simp [validate_cert_name, h]⟩

/-- C3 counterexample: the name `"foo"` already exists in the
CertificateAuthority store, yet creating a Certificate named `"foo"`
passes validation and inserts the record — name uniqueness is checked only
against the calling service's own datastore, not jointly across both. -/
theorem cross_store_name_reuse_not_rejected :
    certificate_do_create
        (Datastore.mk [] [] [] [] ["foo"])
        (CreateData.mk "foo" none none none none none none none) =
      ([CreateEffect.variantRun, CreateEffect.datastoreInsert,
        CreateEffect.sslServiceStart], none) := by
  decide

/-- C3 (amended): creating a record whose name already exists in the same
service's own store, or equals a reserved keyword, or does not match the
name pattern, is rejected with a field-tagged validation error before any
record is inserted — in both services — but the uniqueness check consults
only the calling service's own datastore (certificate names for
`certificate.create`, CA names for `certificateauthority.create`), so a
name in use by the other service alone is not rejected. -/
theorem create_name_validation_per_store (env : Datastore) (d : CreateData) :
    (d.name ∈ env.certNames ∨ d.name ∈ reservedNames ∨
        cert_name_re_matches d.name = false →
      ∃ errs, certificate_do_create env d = ([], some errs) ∧
        ∃ m, ("certificate_create.name", m) ∈ errs) ∧
    (d.name ∈ env.caNames ∨ d.name ∈ reservedNames ∨
        cert_name_re_matches d.name = false →
      ∃ errs, certificateauthority_do_create env d = ([], some errs) ∧
        ∃ m, ("certificate_authority_create.name", m) ∈ errs) := by
  constructor
  · intro h
    rcases validate_cert_name_flags d.name env.certNames
      "certificate_create.name" h with ⟨m, hm⟩
    have hmem : ("certificate_create.name", m) ∈
        validate_common_attributes env d "certificate_create" ++
          validate_cert_name d.name env.certNames "certificate_create.name" :=
      List.mem_append.mpr (Or.inr hm)
    have hne : validate_common_attributes env d "certificate_create" ++
        validate_cert_name d.name env.certNames "certificate_create.name" ≠ [] := by
      intro h0
      rw [h0] at hmem
      cases hmem
    refine ⟨_, ?_, m, hmem⟩
    simp only [certificate_do_create, if_neg hne]
  · intro h
    rcases validate_cert_name_flags d.name env.caNames
      "certificate_authority_create.name" h with ⟨m, hm⟩
    have hmem : ("certificate_authority_create.name", m) ∈
        validate_common_attributes env d "certificate_authority_create" ++
          validate_cert_name d.name env.caNames "certificate_authority_create.name" :=
      List.mem_append.mpr (Or.inr hm)
    have hne : validate_common_attributes env d "certificate_authority_create" ++
        validate_cert_name d.name env.caNames "certificate_authority_create.name" ≠ [] := by
      intro h0
      rw [h0] at hmem
      cases hmem
    refine ⟨_, ?_, m, hmem⟩
    simp only [certificateauthority_do_create, if_neg hne]

/-- Concrete instantiation of `create_name_validation_per_store`: the name
`"dup"` is present in both stores and both creations are rejected with a
field-tagged name error. -/
theorem create_name_validation_per_store_witness :
    (∃ errs,
      certificate_do_create (Datastore.mk [] [] [] ["dup"] ["dup"])
          (CreateData.mk "dup" none none none none none none none) = ([], some errs) ∧
        ∃ m, ("certificate_create.name", m) ∈ errs) ∧
    (∃ errs,
      certificateauthority_do_create (Datastore.mk [] [] [] ["dup"] ["dup"])
          (CreateData.mk "dup" none none none none none none none) = ([], some errs) ∧
        ∃ m, ("certificate_authority_create.name", m) ∈ errs) :=
  ⟨(create_name_validation_per_store (Datastore.mk [] [] [] ["dup"] ["dup"])
      (CreateData.mk "dup" none none none none none none none)).1 (Or.inl (by decide)),
   (create_name_validation_per_store (Datastore.mk [] [] [] ["dup"] ["dup"])
      (CreateData.mk "dup" none none none none none none none)).2 (Or.inl (by decide))⟩

/-! ## C8: batched validation in `certificate.do_create` -/

/-- C8: `certificate.do_create` raises all accumulated validation failures
(the common-attribute checks together with the name checks) as one batch,
and whenever validation fails no `create_type` variant runs, no record is
inserted into the datastore, and the `ssl` service is not restarted. -/
theorem certificate_do_create_batches_validation (env : Datastore) (d : CreateData)
    (h : validate_common_attributes env d "certificate_create" ++
        validate_cert_name d.name env.certNames "certificate_create.name" ≠ []) :
    certificate_do_create env d =
      ([], some (validate_common_attributes env d "certificate_create" ++
        validate_cert_name d.name env.certNames "certificate_create.name")) := by
  simp only [certificate_do_create, if_neg h]

/-- Concrete instantiation of `certificate_do_create_batches_validation`: a
request with an invalid key length and a reserved name is rejected with
both errors batched and no effect performed. -/
theorem certificate_do_create_batches_validation_witness :
    certificate_do_create (Datastore.mk [] [] [] [] [])
        (CreateData.mk "external" none none none (some 512) none none none) =
      ([], some (validate_common_attributes (Datastore.mk [] [] [] [] [])
          (CreateData.mk "external" none none none (some 512) none none none)
          "certificate_create" ++
        validate_cert_name "external" [] "certificate_create.name")) :=
  certificate_do_create_batches_validation (Datastore.mk [] [] [] [] [])
    (CreateData.mk "external" none none none (some 512) none none none) (by decide)

/-! ## C4: failure isolation in the renewal sweep -/

/-- C4: `renew_certs` evaluated at a sweep of two due certificates whose
first renewal raises: the exception propagates out of the loop, the sweep
aborts, and the second certificate is never attempted — the claimed
per-certificate failure isolation is absent from the code. -/
theorem renew_certs_aborts_at_first_failure :
    renew_certs [AcmeCertState.mk 1 true true, AcmeCertState.mk 2 true false] =
      ([1], true) ∧
    2 ∉ (renew_certs [AcmeCertState.mk 1 true true, AcmeCertState.mk 2 true false]).1 := by
  constructor
  · rfl
  · decide

/-! ## C5: ACME dns_mapping preconditions -/

/-- C5: `acme_issue_certificate` collects every `dns_mapping` precondition
violation — a CSR domain with no authenticator assigned, an assigned
authenticator id that does not exist, a domain ending with a period, a
wildcard not of the form `*.<rest>`, and a mapping entry naming a domain
absent from the CSR — and raises them together as one validation error
before any ACME interaction: on any violation no account is looked up or
created and no order is submitted. -/
theorem acme_issue_certificate_validation_spec (domains : List String)
    (dns_mapping : List (String × Nat)) (authenticator_ids : List Nat) :
    (∀ d ∈ domains, dns_mapping.lookup d = none →
      ("acme_create.dns_mapping", "Please provide DNS authenticator id for " ++ d) ∈
        acme_dns_mapping_errors domains dns_mapping authenticator_ids) ∧
    (∀ d a, d ∈ domains → dns_mapping.lookup d = some a →
      authenticator_ids.contains a = false →
      ("acme_create.dns_mapping",
        "Provided DNS Authenticator id for " ++ d ++ " does not exist") ∈
        acme_dns_mapping_errors domains dns_mapping authenticator_ids) ∧
    (∀ d ∈ domains, (d.data.getLast? == some '.') = true →
      ("acme_create.dns_mapping", "Domain " ++ d ++ " name cannot end with a period") ∈
        acme_dns_mapping_errors domains dns_mapping authenticator_ids) ∧
    (∀ d ∈ domains, d.data.contains '*' = true → (d.data.take 2 == ['*', '.']) = false →
      ("acme_create.dns_mapping",
        "Wildcards must be at the start of domain name followed by a period") ∈
        acme_dns_mapping_errors domains dns_mapping authenticator_ids) ∧
    (∀ e ∈ dns_mapping, domains.contains e.1 = false →
      ("acme_create.dns_mapping", e.1 ++ " not specified in the CSR") ∈
        acme_dns_mapping_errors domains dns_mapping authenticator_ids) ∧
    (acme_dns_mapping_errors domains dns_mapping authenticator_ids ≠ [] →
      acme_issue_certificate domains dns_mapping authenticator_ids =
        ([], some (acme_dns_mapping_errors domains dns_mapping authenticator_ids))) := by
  refine ⟨?_, ?_, ?_, ?_, ?_, ?_⟩
  · intro d hd hlook
    apply List.mem_append.mpr
    left
    apply List.mem_flatten.mpr
    refine ⟨_, List.mem_map_of_mem _ hd, ?_⟩
    simp [hlook]
  · intro d a hd hlook hauth
    have h2 : a ∉ authenticator_ids := by simpa using hauth
    apply List.mem_append.mpr
    left
    apply List.mem_flatten.mpr
    refine ⟨_, List.mem_map_of_mem _ hd, ?_⟩
    simp [hlook, h2]
  · intro d hd hdot
    apply List.mem_append.mpr
    left
    apply List.mem_flatten.mpr
    refine ⟨_, List.mem_map_of_mem _ hd, ?_⟩
    simp [hdot]
  · intro d hd hstar hwild
    have h3 : '*' ∈ d.data := by simpa using hstar
    have h4 : d.data.take 2 ≠ ['*', '.'] := by simpa using hwild
    apply List.mem_append.mpr
    left
    apply List.mem_flatten.mpr
    refine ⟨_, List.mem_map_of_mem _ hd, ?_⟩
    simp [h3, h4]
  · intro e he hnot
    have h5 : e.1 ∉ domains := by simpa using hnot
    apply List.mem_append.mpr
    right
    apply List.mem_flatten.mpr
    refine ⟨_, List.mem_map_of_mem _ he, ?_⟩
    simp [h5]
  · intro h
    simp only [acme_issue_certificate, if_neg h]

/-- Concrete instantiation of `acme_issue_certificate_validation_spec`: the
CSR holds `a.` (unmapped, trailing period), `*x` (misplaced wildcard) and
`b` (mapped to an unknown authenticator), while the mapping also names
`zz` which is not in the CSR; all five violations are reported and the
call performs no ACME step. -/
theorem acme_issue_certificate_validation_spec_witness :
    ("acme_create.dns_mapping", "Please provide DNS authenticator id for " ++ "a.") ∈
      acme_dns_mapping_errors ["a.", "*x", "b"] [("b", 5), ("zz", 1)] [] ∧
    ("acme_create.dns_mapping",
      "Provided DNS Authenticator id for " ++ "b" ++ " does not exist") ∈
      acme_dns_mapping_errors ["a.", "*x", "b"] [("b", 5), ("zz", 1)] [] ∧
    ("acme_create.dns_mapping", "Domain " ++ "a." ++ " name cannot end with a period") ∈
      acme_dns_mapping_errors ["a.", "*x", "b"] [("b", 5), ("zz", 1)] [] ∧
    ("acme_create.dns_mapping",
      "Wildcards must be at the start of domain name followed by a period") ∈
      acme_dns_mapping_errors ["a.", "*x", "b"] [("b", 5), ("zz", 1)] [] ∧
    ("acme_create.dns_mapping", "zz" ++ " not specified in the CSR") ∈
      acme_dns_mapping_errors ["a.", "*x", "b"] [("b", 5), ("zz", 1)] [] ∧
    acme_issue_certificate ["a.", "*x", "b"] [("b", 5), ("zz", 1)] [] =
      ([], some (acme_dns_mapping_errors ["a.", "*x", "b"] [("b", 5), ("zz", 1)] [])) :=
  ⟨(acme_issue_certificate_validation_spec ["a.", "*x", "b"] [("b", 5), ("zz", 1)] []).1
      "a." (by decide) (by decide),
   (acme_issue_certificate_validation_spec ["a.", "*x", "b"] [("b", 5), ("zz", 1)] []).2.1
      "b" 5 (by decide) (by decide) (by decide),
   (acme_issue_certificate_validation_spec ["a.", "*x", "b"] [("b", 5), ("zz", 1)] []).2.2.1
      "a." (by decide) (by decide),
   (acme_issue_certificate_validation_spec ["a.", "*x", "b"] [("b", 5), ("zz", 1)] []).2.2.2.1
      "*x" (by decide) (by decide) (by decide),
   (acme_issue_certificate_validation_spec ["a.", "*x", "b"] [("b", 5), ("zz", 1)] []).2.2.2.2.1
      ("zz", 1) (by decide) (by decide),
   (acme_issue_certificate_validation_spec ["a.", "*x", "b"] [("b", 5), ("zz", 1)] []).2.2.2.2.2
      (by decide)⟩

/-! ## C9: deleting the serving certificate -/

/-- C9: `certificate.do_delete` called with the id of the certificate
currently configured as the system UI serving certificate raises a policy
validation error before attempting ACME revocation or the datastore
delete: the record remains in the store, no revocation request is made,
and the `ssl` service is not restarted. -/
theorem do_delete_ui_certificate_rejected (uiId : Nat) (store : List StoredCert)
    (id : Nat) (force : Bool) (h : uiId = id) :
    certificate_do_delete uiId store id force =
      ([], some DeleteOutcome.uiCertificateInUse, store) := by
  simp only [certificate_do_delete, if_pos h]

/-- Concrete instantiation of `do_delete_ui_certificate_rejected`: deleting
certificate 5 while it is the UI certificate leaves the store unchanged
with only the policy error. -/
theorem do_delete_ui_certificate_rejected_witness :
    certificate_do_delete 5 [StoredCert.mk 5 true true] 5 false =
      ([], some DeleteOutcome.uiCertificateInUse, [StoredCert.mk 5 true true]) :=
  do_delete_ui_certificate_rejected 5 [StoredCert.mk 5 true true] 5 false rfl

/-! ## C10: updates are no-ops unless the name changes -/

/-- C10: `certificate.do_update` and `certificateauthority.do_update` (when
not dispatching the legacy `CA_SIGN_CSR` path) perform no datastore write
and no `ssl` restart when the merged name equals the record's current
name, returning the record's current view; only a call with a different,
valid name writes to the store. -/
theorem do_update_name_unchanged_noop (names : List String) (oldName : String)
    (submittedName : Option String) :
    (submittedName.getD oldName = oldName →
      certificate_do_update names oldName submittedName = ([], none, oldName) ∧
      certificateauthority_do_update names oldName submittedName false =
        some ([], none, oldName)) ∧
    (∀ newName, submittedName = some newName → newName ≠ oldName →
      validate_cert_name newName names "certificate_update.name" = [] →
      certificate_do_update names oldName submittedName =
        ([UpdateEffect.datastoreUpdate, UpdateEffect.sslServiceStart], none, newName)) := by
  constructor
  · intro h
    constructor
    · simp [certificate_do_update, h]
    · simp [certificateauthority_do_update, h]
  · intro newName hs hne hv
    simp [certificate_do_update, hs, hne, hv]

/-- Concrete instantiations of `do_update_name_unchanged_noop`: submitting
the unchanged name `"a"` is a no-op in both services; submitting the valid
new name `"b"` writes and restarts `ssl`. -/
theorem do_update_name_unchanged_noop_witness :
    certificate_do_update [] "a" (some "a") = ([], none, "a") ∧
    certificateauthority_do_update [] "a" (some "a") false = some ([], none, "a") ∧
    certificate_do_update [] "a" (some "b") =
      ([UpdateEffect.datastoreUpdate, UpdateEffect.sslServiceStart], none, "b") :=
  ⟨((do_update_name_unchanged_noop [] "a" (some "a")).1 (by decide)).1,
   ((do_update_name_unchanged_noop [] "a" (some "a")).1 (by decide)).2,
   (do_update_name_unchanged_noop [] "a" (some "b")).2 "b" rfl (by decide) (by decide)⟩
